import Mathlib

/-!
Shallow embedding of the kubernetes-edge-healer core
(scheduler.py, main.py, gossip.py, cache.py) and proofs of the
spec's testable properties.

Python dictionaries keyed by strings are modelled as association
lists; machine integers as Int/Nat; fallible code as Except.
-/

namespace EdgeHealer

/-- Python `d.get(k, default)` on a string-keyed dict of ints. -/
def dictGet (d : List (String × Int)) (k : String) (default : Int) : Int :=
  match d.find? (fun p => p.fst == k) with
  | some p => p.snd
  | none => default

/-- Python `d[k] = v` on a string-keyed dict of ints (upsert, unique keys). -/
def dictSet (d : List (String × Int)) (k : String) (v : Int) : List (String × Int) :=
  if d.any (fun p => p.fst == k) then
    d.map (fun p => if p.fst == k then (k, v) else p)
  else
    d ++ [(k, v)]

/-- The three Prometheus metrics of metrics.py, as counters of events:
`restore_latency_count` counts `RESTORE_LATENCY.observe` calls,
`bind_conflicts_total` counts `BIND_CONFLICTS.inc` calls,
`peer_updates_total` counts `PEER_UPDATES.inc` calls. -/
structure Metrics where
  restore_latency_count : Nat
  bind_conflicts_total : Nat
  peer_updates_total : Nat
  deriving DecidableEq, Repr

/-- Reply of the control plane to the `create_namespaced_pod_binding` POST:
2xx success, or an ApiException carrying an HTTP status. -/
inductive BindReply where
  | ok
  | apiError (status : Nat)
  deriving DecidableEq, Repr

/-- Exceptions that can escape `bid_and_bind`: the `BindConflict` raised on
HTTP 409, or the re-raised ApiException for any other failing status. -/
inductive SchedError where
  | bindConflict
  | apiException (status : Nat)
  deriving DecidableEq, Repr

instance : DecidableEq (Except SchedError Unit) := fun a b =>
  match a, b with
  | .ok (), .ok () => .isTrue rfl
  | .error e, .error f => if h : e = f then .isTrue (by rw [h]) else .isFalse (by simp [h])
  | .ok _, .error _ => .isFalse (by simp)
  | .error _, .ok _ => .isFalse (by simp)

/-- Observable outcome of one `bid_and_bind` call: how many bind POSTs were
issued, the metric state on exit, and normal return vs raised exception. -/
structure BidResult where
  bindCalls : Nat
  metrics : Metrics
  result : Except SchedError Unit
  deriving DecidableEq, Repr

/-- scheduler.py `bid_and_bind`: take the peer snapshot, read the local
capacity with default 0, lose the bid if any advertised value is strictly
greater, otherwise POST the binding; on 2xx observe restore latency, on 409
raise BindConflict, re-raise any other ApiException. `peers` is the snapshot
returned by `gossip.healthy_peers()`, `node` is `gossip.node`, and
`bindReply` is what the control plane answers if the POST is made. -/
def bid_and_bind (peers : List (String × Int)) (node : String)
    (bindReply : BindReply) (m : Metrics) : BidResult :=
  let my_cpu := dictGet peers node 0
  if peers.any (fun p => decide (my_cpu < p.snd)) then
    { bindCalls := 0, metrics := m, result := .ok () }
  else
    match bindReply with
    | .ok =>
        { bindCalls := 1
          metrics := { m with restore_latency_count := m.restore_latency_count + 1 }
          result := .ok () }
    | .apiError s =>
        if s = 409 then
          { bindCalls := 1, metrics := m, result := .error .bindConflict }
        else
          { bindCalls := 1, metrics := m, result := .error (.apiException s) }

/-- Outcome of the control-plane probe `asyncio.wait_for(API.get_api_resources(), timeout)`
as seen by `is_offline`: success, or one of the exception classes the probe
can raise. `otherExc` stands for any exception outside
`(asyncio.TimeoutError, ApiException, OSError)`. -/
inductive ProbeOutcome where
  | success
  | timeout
  | apiException (status : Nat)
  | osError
  | otherExc
  deriving DecidableEq, Repr

/-- main.py `is_offline`: returns False when the probe succeeds; catches
exactly `(asyncio.TimeoutError, ApiException, OSError)` and folds them into
True; any other exception propagates to the caller (modelled as `.error`). -/
def is_offline (probe : ProbeOutcome) : Except Unit Bool :=
  match probe with
  | .success => .ok false
  | .timeout => .ok true
  | .apiException _ => .ok true
  | .osError => .ok true
  | .otherExc => .error ()

/-- Observable outcome of one `on_pod_gone` invocation: whether the peer view
was consulted (`gossip.healthy_peers()` called), how many bind POSTs were
issued, the metric state on exit, and whether an exception escaped the
handler. -/
structure HandlerResult where
  peerViewConsulted : Bool
  bindCalls : Nat
  metrics : Metrics
  raised : Bool
  deriving DecidableEq, Repr

/-- main.py `on_pod_gone`: consult `is_offline`; if online return at once;
otherwise call `bid_and_bind`, observing restore latency on normal return,
incrementing `bind_conflicts_total` on BindConflict, and logging (swallowing)
any other exception. -/
def on_pod_gone (probe : ProbeOutcome) (peers : List (String × Int))
    (node : String) (bindReply : BindReply) (m : Metrics) : HandlerResult :=
  match is_offline probe with
  | .error _ =>
      { peerViewConsulted := false, bindCalls := 0, metrics := m, raised := true }
  | .ok false =>
      { peerViewConsulted := false, bindCalls := 0, metrics := m, raised := false }
  | .ok true =>
      let r := bid_and_bind peers node bindReply m
      match r.result with
      | .ok _ =>
          { peerViewConsulted := true
            bindCalls := r.bindCalls
            metrics := { r.metrics with
                          restore_latency_count := r.metrics.restore_latency_count + 1 }
            raised := false }
      | .error .bindConflict =>
          { peerViewConsulted := true
            bindCalls := r.bindCalls
            metrics := { r.metrics with
                          bind_conflicts_total := r.metrics.bind_conflicts_total + 1 }
            raised := false }
      | .error (.apiException _) =>
          { peerViewConsulted := true
            bindCalls := r.bindCalls
            metrics := r.metrics
            raised := false }

/-- JSON values, modelling the Python objects handled by json.dumps /
json.loads: gossip payloads and replica-set bodies. Numbers are integers
(milli-cores, replica counts). -/
inductive Json where
  | null
  | bool (b : Bool)
  | num (n : Int)
  | str (s : String)
  | arr (xs : List Json)
  | obj (fields : List (String × Json))

mutual

/-- json.dumps with its default separators. -/
def Json.ser : Json → String
  | .null => "null"
  | .bool true => "true"
  | .bool false => "false"
  | .num n => toString n
  | .str s => "\"" ++ s ++ "\""
  | .arr xs => "[" ++ Json.serArr xs ++ "]"
  | .obj fs => "\x7b" ++ Json.serFields fs ++ "\x7d"

/-- Comma-separated serialization of array elements. -/
def Json.serArr : List Json → String
  | [] => ""
  | [x] => x.ser
  | x :: y :: xs => x.ser ++ ", " ++ Json.serArr (y :: xs)

/-- Comma-separated serialization of object fields. -/
def Json.serFields : List (String × Json) → String
  | [] => ""
  | [(k, v)] => "\"" ++ k ++ "\": " ++ v.ser
  | (k, v) :: f :: fs => "\"" ++ k ++ "\": " ++ v.ser ++ ", " ++ Json.serFields (f :: fs)

end

/-- Python `dict.get(k)` on a decoded JSON object (None when absent). -/
def Json.objGet (fields : List (String × Json)) (k : String) : Option Json :=
  (fields.find? (fun p => p.fst == k)).map Prod.snd

/-- Python `data.get("free_cpu", 0)` on a decoded gossip payload. -/
def Json.getFreeCpu (data : Json) : Int :=
  match data with
  | .obj fields =>
      match Json.objGet fields "free_cpu" with
      | some (.num n) => n
      | some _ => 0
      | none => 0
  | _ => 0

/-- A gossip transport event as consumed by SerfGossip.run: a name, the
sending peer (the transport's `src` field) and an optional decoded JSON
payload (`none` models an empty/falsy payload). -/
structure GossipEvent where
  name : String
  src : String
  payload : Option Json

/-- gossip.py SerfGossip.run, one event of the ingress loop: if the event
name equals "query" and the payload is non-empty, decode it, upsert
`peers[event.src] = data.get("free_cpu", 0)` and increment
`peer_updates_total`; every other event leaves the state untouched. -/
def gossipStep (peers : List (String × Int)) (peer_updates_total : Nat)
    (ev : GossipEvent) : List (String × Int) × Nat :=
  if ev.name == "query" then
    match ev.payload with
    | some data => (dictSet peers ev.src (Json.getFreeCpu data), peer_updates_total + 1)
    | none => (peers, peer_updates_total)
  else
    (peers, peer_updates_total)

/-- gossip.py SerfGossip.broadcast_free_cpu: the event it emits on the ring,
named "free_cpu" with payload json.dumps of a free_cpu object, as it arrives
at a peer whose transport reports this node as `src`. -/
def broadcast_free_cpu (node : String) (milli : Int) : GossipEvent :=
  { name := "free_cpu", src := node, payload := some (.obj [("free_cpu", .num milli)]) }

/-! ### Heap model for Python dict aliasing

`healthy_peers` returns `dict(self.peers)` — a fresh copy, not a reference.
To state that later in-place updates to `self.peers` leave an earlier
snapshot untouched, Python object identity is made explicit: a heap maps
addresses to dict contents, the gossip object holds the address of its
`peers` dict, and a snapshot is a freshly allocated address. -/

/-- Address of a Python object on the heap. -/
abbrev Addr := Nat

/-- Heap of string-keyed int dicts: a store of address/contents pairs and
the next fresh address. -/
structure Heap where
  store : List (Addr × List (String × Int))
  next : Addr

/-- Dereference an address. -/
def Heap.read (h : Heap) (a : Addr) : Option (List (String × Int)) :=
  (h.store.find? (fun e => e.fst == a)).map Prod.snd

/-- Overwrite the contents at an existing address (in-place mutation). -/
def Heap.write (h : Heap) (a : Addr) (d : List (String × Int)) : Heap :=
  { h with store := h.store.map (fun e => if e.fst == a then (a, d) else e) }

/-- Allocate a fresh object with the given contents. -/
def Heap.alloc (h : Heap) (d : List (String × Int)) : Addr × Heap :=
  (h.next, { store := h.store ++ [(h.next, d)], next := h.next + 1 })

/-- Every allocated address is below `next`, so `alloc` is fresh. -/
def Heap.wf (h : Heap) : Prop :=
  ∀ e ∈ h.store, e.fst < h.next

/-- gossip.py `self.peers[event.src] = v` — the ingress loop's in-place
upsert of the peers dict living at address `pa`. -/
def peersUpdate (h : Heap) (pa : Addr) (k : String) (v : Int) : Heap :=
  match h.read pa with
  | some d => h.write pa (dictSet d k v)
  | none => h

/-- gossip.py SerfGossip.healthy_peers: `return dict(self.peers)` — read the
peers dict at `pa` and allocate a fresh copy of it, returning the copy's
address. -/
def healthy_peers (h : Heap) (pa : Addr) : Addr × Heap :=
  h.alloc ((h.read pa).getD [])

/-! ### Desired-state cache (cache.py)

The SQLite table `rs (uid TEXT PRIMARY KEY, spec TEXT)` is modelled as a
list of rows. SQLite permits NULL in a TEXT primary key and treats each
NULL as distinct from every value (including other NULLs), so the key is
`Option String` and `REPLACE` only displaces rows with an equal non-null
key. -/

/-- A replica-set object as delivered by the watch stream: a mapping-like
body (Kopf Body), i.e. the field list of a JSON object. -/
abbrev RsObj := List (String × Json)

/-- cache.py `rs_obj.get("metadata", \x7b\x7d).get("uid")`: None when the
object has no metadata mapping with a string uid. -/
def getUid (rs : RsObj) : Option String :=
  match Json.objGet rs "metadata" with
  | some (.obj meta) =>
      match Json.objGet meta "uid" with
      | some (.str u) => some u
      | _ => none
  | _ => none

/-- One row of the `rs` table: (uid, spec) with a possibly-NULL uid. -/
abbrev Row := Option String × String

/-- SQLite `REPLACE INTO rs(uid, spec) VALUES(?, ?)`: delete any row whose
primary key equals the new non-null uid, then insert; a NULL uid conflicts
with nothing and always inserts a new row. -/
def replaceInto (rows : List Row) (uid : Option String) (spec : String) : List Row :=
  match uid with
  | some u => rows.filter (fun r => !(r.fst == some u)) ++ [(some u, spec)]
  | none => rows ++ [(none, spec)]

/-- cache.py DesiredStateCache.save_rs: extract the uid, json.dumps the
whole mapping, and upsert it under that uid. -/
def save_rs (rows : List Row) (rs : RsObj) : List Row :=
  replaceInto rows (getUid rs) (Json.obj rs).ser

/-- cache.py DesiredStateCache.load_all: `SELECT spec FROM rs` — the stored
blobs, in table order. -/
def load_all (rows : List Row) : List String :=
  rows.map Prod.snd

/-- The blobs stored under a given non-null uid, in table order. -/
def blobsFor (rows : List Row) (u : String) : List String :=
  (rows.filter (fun r => r.fst == some u)).map Prod.snd

/-- Whether a JSON value is a mapping, i.e. supports Python's `.get`. -/
def Json.isObj : Json → Bool
  | .obj _ => true
  | _ => false

/-- cache.py save_rs uid extraction, `rs_obj.get("metadata", \x7b\x7d).get("uid")`,
with its raising path: None when the metadata key is absent or its mapping
lacks "uid"; the uid value when present; AttributeError (modelled as
`.error`) when the metadata key holds a non-mapping value, since only
mappings have `.get`. -/
def extractUid (rs : RsObj) : Except Unit (Option Json) :=
  match Json.objGet rs "metadata" with
  | none => .ok none
  | some (.obj meta) => .ok (Json.objGet meta "uid")
  | some _ => .error ()

/-- cache.py DesiredStateCache.save_rs with its raising path made explicit:
the uid extraction runs first and an AttributeError aborts the save with
nothing persisted; otherwise the object is serialized and upserted under
the extracted uid — NULL for None, the string itself for a string uid,
which `save_rs` performs (`getUid` is the extraction restricted to the
string-or-absent uids the replica-set schema and the rs table's TEXT
primary key give; no theorem's hypotheses reach a uid of another shape). -/
def save_rs_checked (rows : List Row) (rs : RsObj) : Except Unit (List Row) :=
  match extractUid rs with
  | .error _ => .error ()
  | .ok _ => .ok (save_rs rows rs)

/-- The most recent object in a save sequence carrying the given uid. -/
def lastWithUid : List RsObj → String → Option RsObj
  | [], _ => none
  | o :: os, u =>
      match lastWithUid os u with
      | some r => some r
      | none => if getUid o = some u then some o else none

/-- A sequence of ingress upserts applied in order to the peers dict. -/
def peersUpdates (h : Heap) (pa : Addr) (us : List (String × Int)) : Heap :=
  us.foldl (fun hp kv => peersUpdate hp pa kv.fst kv.snd) h

/-- Scenario-6 fixture: replica-set u1 with spec r:1. -/
def rsU1a : RsObj :=
  [("metadata", .obj [("uid", .str "u1")]), ("spec", .obj [("r", .num 1)])]

/-- Scenario-6 fixture: replica-set u1 re-observed with spec r:2. -/
def rsU1b : RsObj :=
  [("metadata", .obj [("uid", .str "u1")]), ("spec", .obj [("r", .num 2)])]

/-- Scenario-6 fixture: replica-set u2 with spec r:5. -/
def rsU2 : RsObj :=
  [("metadata", .obj [("uid", .str "u2")]), ("spec", .obj [("r", .num 5)])]

/-! ## Theorems -/

/-- C1: the claim says that on the tied snapshot alpha:3, beta:3 only the
lexicographically smallest node "alpha" attempts the bind and "beta" does
not. The code has no tie-break: `any(cpu > my_cpu)` is false on both nodes,
so BOTH issue a bind POST — "beta" binds too, refuting the claim at the
spec's own scenario 3 input. -/
theorem c1_tie_both_nodes_bind :
    (bid_and_bind [("alpha", 3), ("beta", 3)] "beta" .ok ⟨0, 0, 0⟩).bindCalls = 1 ∧
    (bid_and_bind [("alpha", 3), ("beta", 3)] "alpha" .ok ⟨0, 0, 0⟩).bindCalls = 1 := by
  decide

/-- C2: whenever some other peer advertises strictly more free CPU than the
local node's value (default 0), bid_and_bind returns normally with no bind
POST and the metric state completely unchanged. -/
theorem c2_strictly_greater_peer_loses (peers : List (String × Int)) (node : String)
    (bindReply : BindReply) (m : Metrics) (q : String) (v : Int)
    (hq : (q, v) ∈ peers) (_hqn : q ≠ node) (hgt : dictGet peers node 0 < v) :
    bid_and_bind peers node bindReply m =
      { bindCalls := 0, metrics := m, result := .ok () } := by
  have hany : peers.any (fun p => decide (dictGet peers node 0 < p.snd)) = true :=
    List.any_eq_true.mpr ⟨(q, v), hq, by simpa using hgt⟩
  unfold bid_and_bind
  simp [hany]

/-- C2 witness: on snapshot a:2, b:4 node "a" loses to "b" and does not bind. -/
theorem c2_strictly_greater_peer_loses_witness :
    bid_and_bind [("a", 2), ("b", 4)] "a" .ok ⟨0, 0, 0⟩ =
      { bindCalls := 0, metrics := ⟨0, 0, 0⟩, result := .ok () } :=
  c2_strictly_greater_peer_loses [("a", 2), ("b", 4)] "a" .ok ⟨0, 0, 0⟩ "b" 4
    (by decide) (by decide) (by decide)

/-- C9: when the local node is absent from the snapshot its capacity reads
as 0, and on an entirely empty snapshot the comparison finds no greater
peer, so the node wins locally and one bind POST is attempted. -/
theorem c9_absent_self_defaults_to_zero (peers : List (String × Int)) (node : String)
    (bindReply : BindReply) (m : Metrics)
    (habsent : peers.find? (fun p => p.fst == node) = none) :
    dictGet peers node 0 = 0 ∧ (bid_and_bind [] node bindReply m).bindCalls = 1 := by
  constructor
  · unfold dictGet
    rw [habsent]
  · unfold bid_and_bind
    cases bindReply with
    | ok => rfl
    | apiError s =>
        by_cases h409 : s = 409 <;> simp [dictGet, h409]

/-- C9 witness: node "n" absent from snapshot x:5 reads capacity 0, and on
the empty snapshot it attempts the bind. -/
theorem c9_absent_self_defaults_to_zero_witness :
    dictGet [("x", 5)] "n" 0 = 0 ∧ (bid_and_bind [] "n" .ok ⟨0, 0, 0⟩).bindCalls = 1 :=
  c9_absent_self_defaults_to_zero [("x", 5)] "n" .ok ⟨0, 0, 0⟩ (by decide)

/-- C3 counterexample: an exception outside the caught classes
(asyncio.TimeoutError, ApiException, OSError) raised by the probe
propagates out of is_offline instead of being swallowed and folded into
true, so "is_offline never raises" is false as stated. -/
theorem c3_uncaught_exception_escapes :
    is_offline ProbeOutcome.otherExc = .error () := rfl

/-- C3 amended: is_offline returns false when the probe succeeds and true
when the probe times out, raises an ApiException (transport failure) or an
OSError (network-class error); only exceptions outside those classes
propagate. -/
theorem c3_offline_verdict (p : ProbeOutcome) (h : p ≠ ProbeOutcome.otherExc) :
    is_offline p = if p = ProbeOutcome.success then .ok false else .ok true := by
  cases p <;> first | rfl | exact absurd rfl h

/-- C3 witness: a timed-out probe yields the verdict true without raising. -/
theorem c3_offline_verdict_witness :
    is_offline ProbeOutcome.timeout =
      if ProbeOutcome.timeout = ProbeOutcome.success then .ok false else .ok true :=
  c3_offline_verdict ProbeOutcome.timeout (by decide)

/-- C4: when is_offline reports online, on_pod_gone returns immediately:
the peer view is never consulted, no bind POST is issued, the metrics are
untouched and nothing is raised. -/
theorem c4_online_returns_immediately (probe : ProbeOutcome)
    (peers : List (String × Int)) (node : String) (bindReply : BindReply)
    (m : Metrics) (honline : is_offline probe = .ok false) :
    on_pod_gone probe peers node bindReply m =
      { peerViewConsulted := false, bindCalls := 0, metrics := m, raised := false } := by
  unfold on_pod_gone
  rw [honline]

/-- C4 witness: with a successful probe and snapshot n:4, m:2 the handler
skips without binding. -/
theorem c4_online_returns_immediately_witness :
    on_pod_gone ProbeOutcome.success [("n", 4), ("m", 2)] "n" .ok ⟨0, 0, 0⟩ =
      { peerViewConsulted := false, bindCalls := 0, metrics := ⟨0, 0, 0⟩,
        raised := false } :=
  c4_online_returns_immediately ProbeOutcome.success [("n", 4), ("m", 2)] "n" .ok
    ⟨0, 0, 0⟩ rfl

/-- C5: on a won bid whose bind POST is answered 409, bid_and_bind raises
exactly BindConflict after a single POST with no latency observation; the
handler then increments bind_conflicts_total exactly once, records no
restore-latency sample, does not retry, and swallows nothing further (no
crash); a failing status other than 409 is re-raised as the ApiException
itself, not as BindConflict. -/
theorem c5_conflict_handling (probe : ProbeOutcome) (peers : List (String × Int))
    (node : String) (m : Metrics) (s : Nat)
    (hoff : is_offline probe = .ok true)
    (hwin : peers.any (fun p => decide (dictGet peers node 0 < p.snd)) = false)
    (hs : s ≠ 409) :
    bid_and_bind peers node (.apiError 409) m =
      { bindCalls := 1, metrics := m, result := .error .bindConflict } ∧
    on_pod_gone probe peers node (.apiError 409) m =
      { peerViewConsulted := true, bindCalls := 1,
        metrics := { m with bind_conflicts_total := m.bind_conflicts_total + 1 },
        raised := false } ∧
    bid_and_bind peers node (.apiError s) m =
      { bindCalls := 1, metrics := m, result := .error (.apiException s) } := by
  have h409 : bid_and_bind peers node (.apiError 409) m =
      { bindCalls := 1, metrics := m, result := .error .bindConflict } := by
    unfold bid_and_bind
    simp [hwin]
  refine ⟨h409, ?_, ?_⟩
  · unfold on_pod_gone
    rw [hoff, h409]
  · unfold bid_and_bind
    simp [hwin, hs]

/-- C5 witness: offline via timeout, snapshot n:4 won by "n", a 409 reply
bumps the conflict counter once and a 500 reply propagates as ApiException. -/
theorem c5_conflict_handling_witness :
    bid_and_bind [("n", 4)] "n" (.apiError 409) ⟨0, 0, 0⟩ =
      { bindCalls := 1, metrics := ⟨0, 0, 0⟩, result := .error .bindConflict } ∧
    on_pod_gone ProbeOutcome.timeout [("n", 4)] "n" (.apiError 409) ⟨0, 0, 0⟩ =
      { peerViewConsulted := true, bindCalls := 1, metrics := ⟨0, 1, 0⟩,
        raised := false } ∧
    bid_and_bind [("n", 4)] "n" (.apiError 500) ⟨0, 0, 0⟩ =
      { bindCalls := 1, metrics := ⟨0, 0, 0⟩, result := .error (.apiException 500) } :=
  c5_conflict_handling ProbeOutcome.timeout [("n", 4)] "n" ⟨0, 0, 0⟩ 500
    rfl (by decide) (by decide)

/-- C7: the claim says an event named "free_cpu" with a numeric free_cpu
payload updates the peer view and bumps peer_updates_total, while unknown
names are ignored. The ingress loop instead matches the name "query": the
very event emitted by broadcast_free_cpu (named "free_cpu") is dropped with
no state change, whereas a "query"-named event is the one that updates the
view and the counter. -/
theorem c7_ingress_matches_query_not_free_cpu :
    gossipStep [] 0 (broadcast_free_cpu "peer1" 5) = ([], 0) ∧
    gossipStep [] 0
      { name := "query", src := "peer1",
        payload := some (.obj [("free_cpu", .num 5)]) } = ([("peer1", 5)], 1) := by
  decide

/-- Writing at one address leaves reads at any other address unchanged. -/
theorem Heap.read_write_ne (h : Heap) (a b : Addr) (d : List (String × Int))
    (hab : a ≠ b) : (h.write a d).read b = h.read b := by
  simp only [Heap.write, Heap.read, List.find?_map]
  have hcong :
      ((fun e => e.fst == b) ∘
        (fun (e : Addr × List (String × Int)) => if e.fst == a then (a, d) else e)) =
      fun (e : Addr × List (String × Int)) => e.fst == b := by
    funext e
    by_cases he : e.fst = a <;> simp [Function.comp, he]
  rw [hcong]
  cases hf : h.store.find? (fun e => e.fst == b) with
  | none => rfl
  | some e =>
      have hb : e.fst = b := by simpa using List.find?_some hf
      have hba : e.fst ≠ a := by rw [hb]; exact Ne.symm hab
      simp [hba]

/-- One ingress upsert at the peers address leaves reads elsewhere unchanged. -/
theorem peersUpdate_read_ne (h : Heap) (pa sa : Addr) (k : String) (v : Int)
    (hne : pa ≠ sa) : (peersUpdate h pa k v).read sa = h.read sa := by
  unfold peersUpdate
  cases hr : h.read pa with
  | none => rfl
  | some d => exact Heap.read_write_ne h pa sa (dictSet d k v) hne

/-- A whole sequence of ingress upserts at the peers address leaves reads
elsewhere unchanged. -/
theorem peersUpdates_read_ne (us : List (String × Int)) (h : Heap) (pa sa : Addr)
    (hne : pa ≠ sa) : (peersUpdates h pa us).read sa = h.read sa := by
  induction us generalizing h with
  | nil => rfl
  | cons kv us ih =>
      show (peersUpdates (peersUpdate h pa kv.fst kv.snd) pa us).read sa = _
      rw [ih (peersUpdate h pa kv.fst kv.snd), peersUpdate_read_ne h pa sa kv.fst kv.snd hne]

/-- On a well-formed heap nothing is stored at the next fresh address. -/
theorem find?_next_none (h : Heap) (hwf : h.wf) :
    h.store.find? (fun e => e.fst == h.next) = none := by
  apply List.find?_eq_none.mpr
  intro e he
  simpa using Nat.ne_of_lt (hwf e he)

/-- Reading freshly allocated contents gives them back. -/
theorem read_alloc (h : Heap) (d : List (String × Int)) (hwf : h.wf) :
    (h.alloc d).snd.read (h.alloc d).fst = some d := by
  simp only [Heap.alloc, Heap.read, List.find?_append, find?_next_none h hwf]
  simp [List.find?]

/-- An address holding contents on a well-formed heap is below `next`. -/
theorem read_some_lt_next (h : Heap) (pa : Addr) (d : List (String × Int))
    (hwf : h.wf) (hr : h.read pa = some d) : pa < h.next := by
  unfold Heap.read at hr
  cases hf : h.store.find? (fun e => e.fst == pa) with
  | none => rw [hf] at hr; simp at hr
  | some e =>
      have hmem := List.mem_of_find?_eq_some hf
      have hp : e.fst = pa := by simpa using List.find?_some hf
      exact hp ▸ hwf e hmem

/-- C8: healthy_peers returns a fresh copy of the peers dict: the snapshot
holds exactly the mapping at snapshot time, and no later sequence of ingress
updates to the peers dict changes the snapshot's contents. -/
theorem c8_snapshot_independent (h : Heap) (pa : Addr) (d : List (String × Int))
    (us : List (String × Int)) (hwf : h.wf) (hread : h.read pa = some d) :
    (healthy_peers h pa).snd.read (healthy_peers h pa).fst = some d ∧
    (peersUpdates (healthy_peers h pa).snd pa us).read (healthy_peers h pa).fst =
      some d := by
  have hd : (h.read pa).getD [] = d := by rw [hread]; rfl
  have h1 : (healthy_peers h pa).snd.read (healthy_peers h pa).fst = some d := by
    unfold healthy_peers
    rw [hd]
    exact read_alloc h d hwf
  refine ⟨h1, ?_⟩
  have hne : pa ≠ (healthy_peers h pa).fst := by
    have hlt := read_some_lt_next h pa d hwf hread
    unfold healthy_peers Heap.alloc
    exact Nat.ne_of_lt hlt
  rw [peersUpdates_read_ne us (healthy_peers h pa).snd pa (healthy_peers h pa).fst hne]
  exact h1

/-- C8 witness: on a one-dict heap holding n:3, the snapshot reads n:3 both
before and after a later update writing m:7 into the peers dict. -/
theorem c8_snapshot_independent_witness :
    (healthy_peers ⟨[(0, [("n", 3)])], 1⟩ 0).snd.read
        (healthy_peers ⟨[(0, [("n", 3)])], 1⟩ 0).fst = some [("n", 3)] ∧
    (peersUpdates (healthy_peers ⟨[(0, [("n", 3)])], 1⟩ 0).snd 0
        [("m", 7)]).read (healthy_peers ⟨[(0, [("n", 3)])], 1⟩ 0).fst =
      some [("n", 3)] :=
  c8_snapshot_independent ⟨[(0, [("n", 3)])], 1⟩ 0 [("n", 3)] [("m", 7)]
    (by intro e he; simp at he; simp [he]) rfl

/-- One save step, seen per uid: saving an object with this uid replaces
the uid's blobs by the new serialization; any other uid's blobs are kept. -/
theorem blobsFor_save_rs (rows : List Row) (rs : RsObj) (u : String) :
    blobsFor (save_rs rows rs) u =
      if getUid rs = some u then [(Json.obj rs).ser] else blobsFor rows u := by
  unfold save_rs replaceInto blobsFor
  cases hg : getUid rs with
  | none => simp [List.filter_append]
  | some u' =>
      by_cases hu : u' = u
      · subst hu
        have hpt : ∀ r : Row, ((r.fst == some u') && !(r.fst == some u')) = false := by
          intro r
          cases hr : (r.fst == some u') <;> simp [hr]
        simp [List.filter_append, List.filter_filter, hpt]
      · have hpt : ∀ r : Row, ((r.fst == some u) && !(r.fst == some u')) =
            (r.fst == some u) := by
          intro r
          by_cases hr : r.fst = some u
          · simp [hr, Ne.symm hu]
          · simp [hr]
        simp [List.filter_append, List.filter_filter, hpt, hu]

/-- Unfolding equation of lastWithUid on a cons. -/
theorem lastWithUid_cons (o : RsObj) (os : List RsObj) (u : String) :
    lastWithUid (o :: os) u =
      match lastWithUid os u with
      | some r => some r
      | none => if getUid o = some u then some o else none := rfl

/-- Folding a save sequence, seen per uid: the uid's blobs end up being the
serialization of the most recent object carrying it, else whatever the
starting table held for it. -/
theorem blobsFor_foldl (objs : List RsObj) (rows : List Row) (u : String) :
    blobsFor (objs.foldl save_rs rows) u =
      match lastWithUid objs u with
      | some o => [(Json.obj o).ser]
      | none => blobsFor rows u := by
  induction objs generalizing rows with
  | nil => rfl
  | cons o os ih =>
      rw [List.foldl_cons, ih (save_rs rows o), lastWithUid_cons]
      cases h : lastWithUid os u with
      | some r => rfl
      | none =>
          rw [blobsFor_save_rs]
          by_cases hg : getUid o = some u
          · simp [hg]
          · simp [hg]

/-- Replacing under a non-null uid neither creates nor destroys null-uid rows. -/
theorem null_rows_replace_some (rows : List Row) (u' s : String) :
    (replaceInto rows (some u') s).filter (fun r => r.fst == none) =
      rows.filter (fun r => r.fst == none) := by
  unfold replaceInto
  have hpt : ∀ r : Row, ((r.fst == none) && !(r.fst == some u')) = (r.fst == none) := by
    intro r
    cases hr : r.fst <;> simp
  simp [List.filter_append, List.filter_filter, hpt]

/-- A save sequence of objects that all carry a uid leaves no null-uid rows. -/
theorem no_null_rows (objs : List RsObj) : ∀ rows : List Row,
    (∀ o ∈ objs, (getUid o).isSome) →
    rows.filter (fun r => r.fst == none) = [] →
    (objs.foldl save_rs rows).filter (fun r => r.fst == none) = [] := by
  induction objs with
  | nil => exact fun _ _ h0 => h0
  | cons o os ih =>
      intro rows h h0
      rw [List.foldl_cons]
      refine ih (save_rs rows o) (fun o' ho' => h o' (List.mem_cons_of_mem _ ho')) ?_
      have ho := h o (List.mem_cons_self _ _)
      cases hg : getUid o with
      | none => rw [hg] at ho; simp at ho
      | some u' =>
          unfold save_rs
          rw [hg, null_rows_replace_some rows u' (Json.obj o).ser, h0]

/-- A save sequence holds a blob for a uid exactly when some saved object
carried that uid. -/
theorem lastWithUid_isSome (objs : List RsObj) (u : String) :
    (lastWithUid objs u).isSome ↔ ∃ o ∈ objs, getUid o = some u := by
  induction objs with
  | nil => simp [lastWithUid]
  | cons o os ih =>
      rw [lastWithUid_cons]
      cases h : lastWithUid os u with
      | some r =>
          rw [h] at ih
          simp only [Option.isSome_some, true_iff] at ih
          constructor
          · intro _
            obtain ⟨o', ho', hg⟩ := ih
            exact ⟨o', List.mem_cons_of_mem _ ho', hg⟩
          · exact fun _ => rfl
      | none =>
          rw [h] at ih
          simp only [Option.isSome_none, Bool.false_eq_true, false_iff] at ih
          by_cases hg : getUid o = some u
          · rw [if_pos hg]
            simp only [Option.isSome_some, true_iff]
            exact ⟨o, List.mem_cons_self _ _, hg⟩
          · rw [if_neg hg]
            simp only [Option.isSome_none, Bool.false_eq_true, false_iff]
            rintro ⟨o', ho', hg'⟩
            rcases List.mem_cons.mp ho' with rfl | ho''
            · exact hg hg'
            · exact ih ⟨o', ho'', hg'⟩

/-- C6: starting from an empty table, a sequence of save_rs calls on
uid-carrying objects leaves exactly one blob per distinct uid that appears
in the sequence — the serialization of the most recent save for that uid —
and no null-uid rows, so load_all round-trips the latest saves. -/
theorem c6_cache_roundtrip (objs : List RsObj) (u : String)
    (h : ∀ o ∈ objs, (getUid o).isSome) :
    (blobsFor (objs.foldl save_rs []) u =
      match lastWithUid objs u with
      | some o => [(Json.obj o).ser]
      | none => []) ∧
    (objs.foldl save_rs []).filter (fun r => r.fst == none) = [] ∧
    ((lastWithUid objs u).isSome ↔ ∃ o ∈ objs, getUid o = some u) := by
  refine ⟨?_, no_null_rows objs [] h rfl, lastWithUid_isSome objs u⟩
  rw [blobsFor_foldl objs [] u]
  cases lastWithUid objs u <;> rfl

/-- C6 witness: saving u1 with r:1, u1 again with r:2, then u2 with r:5
leaves the single u1 blob equal to the serialization of the second save. -/
theorem c6_cache_roundtrip_witness :
    (blobsFor ([rsU1a, rsU1b, rsU2].foldl save_rs []) "u1" =
      match lastWithUid [rsU1a, rsU1b, rsU2] "u1" with
      | some o => [(Json.obj o).ser]
      | none => []) ∧
    ([rsU1a, rsU1b, rsU2].foldl save_rs []).filter (fun r => r.fst == none) = [] ∧
    ((lastWithUid [rsU1a, rsU1b, rsU2] "u1").isSome ↔
      ∃ o ∈ [rsU1a, rsU1b, rsU2], getUid o = some "u1") :=
  c6_cache_roundtrip [rsU1a, rsU1b, rsU2] "u1" (by decide)

/-- When the extraction yields a Python None uid, getUid agrees: none. -/
theorem getUid_of_extract_none (rs : RsObj) (h : extractUid rs = .ok none) :
    getUid rs = none := by
  unfold extractUid at h
  unfold getUid
  cases hm : Json.objGet rs "metadata" with
  | none => rfl
  | some j =>
      rw [hm] at h
      cases j with
      | null => exact Except.noConfusion h
      | bool b => exact Except.noConfusion h
      | num n => exact Except.noConfusion h
      | str s => exact Except.noConfusion h
      | arr xs => exact Except.noConfusion h
      | obj meta =>
          have hu : Json.objGet meta "uid" = none := by
            simpa using h
          simp [hu]

/-- A metadata key holding a non-mapping value makes the extraction raise. -/
theorem extractUid_nonmapping_error (rs : RsObj) (j : Json)
    (hm : Json.objGet rs "metadata" = some j) (hj : j.isObj = false) :
    extractUid rs = .error () := by
  unfold extractUid
  rw [hm]
  cases j <;> first | rfl | simp [Json.isObj] at hj

/-- C10 counterexample: the mapping whose metadata key holds the string
"oops" lacks a metadata.uid field and is JSON-serializable, yet save_rs
raises (AttributeError at the uid extraction, since a string has no `.get`)
instead of persisting a NULL-keyed blob, so "saving uid-less objects
succeeds rather than raising" is false as stated. -/
theorem c10_metadata_nonmapping_raises :
    save_rs_checked [] [("metadata", .str "oops")] = .error () := rfl

/-- C10 amended: an input mapping that lacks metadata.uid because the
metadata key is absent or maps to a mapping without a uid entry is not
rejected: the uid is extracted as None, the blob is appended as a NULL-keyed
row (SQLite primary keys admit NULL, and NULL conflicts with nothing), every
prior row survives and the blobs under any real uid are unchanged; but when
the metadata key holds a non-mapping value, the uid extraction raises
AttributeError and save_rs propagates it, persisting nothing. -/
theorem c10_uidless_save_appends (rows : List Row) (rs rs' : RsObj) (u : String)
    (j : Json) (h : extractUid rs = .ok none)
    (hm : Json.objGet rs' "metadata" = some j) (hj : j.isObj = false) :
    save_rs_checked rows rs = .ok (rows ++ [(none, (Json.obj rs).ser)]) ∧
    blobsFor (rows ++ [(none, (Json.obj rs).ser)]) u = blobsFor rows u ∧
    save_rs_checked rows rs' = .error () := by
  have hg : getUid rs = none := getUid_of_extract_none rs h
  have h1 : save_rs rows rs = rows ++ [(none, (Json.obj rs).ser)] := by
    unfold save_rs replaceInto
    rw [hg]
  refine ⟨?_, ?_, ?_⟩
  · unfold save_rs_checked
    rw [h, h1]
  · unfold blobsFor
    simp [List.filter_append]
  · unfold save_rs_checked
    rw [extractUid_nonmapping_error rs' j hm hj]

/-- C10 witness: saving a metadata-less object onto a table holding u1
appends a NULL row leaving u1's blobs unchanged, while saving the object
whose metadata is the string "oops" raises. -/
theorem c10_uidless_save_appends_witness :
    save_rs_checked [(some "u1", "x")] [("spec", .num 1)] =
      .ok ([(some "u1", "x")] ++ [(none, (Json.obj [("spec", Json.num 1)]).ser)]) ∧
    blobsFor ([(some "u1", "x")] ++ [(none, (Json.obj [("spec", Json.num 1)]).ser)])
        "u1" = blobsFor [(some "u1", "x")] "u1" ∧
    save_rs_checked [(some "u1", "x")] [("metadata", .str "oops")] = .error () :=
  c10_uidless_save_appends [(some "u1", "x")] [("spec", .num 1)]
    [("metadata", .str "oops")] "u1" (Json.str "oops") rfl rfl rfl

end EdgeHealer
